import Mathlib

/-!
Shallow embedding of the Kochi Metro induction planner
(source `streamlit_induction_app.py`): the evaluation engine
(`evaluate`, source lines 64-119) and the module-level rank-and-assign
allocator (source lines 130-142), together with theorems settling the
specification claims.

Modelling conventions:
* A pandas cell of a numeric column is a `Cell`: an exact rational,
  NaN (a missing value), or a non-numeric string.  A CSV column that
  contains a non-numeric string is object dtype, so `.mean()` / `.std()`
  on it raise, as does per-row `int(...)` / `float(...)`; such raised
  exceptions are modelled with `Except.error`.
* Dates are integers (day numbers); pandas `NaT` is `none`.
* Python floats are idealised as exact rationals, except the standard
  deviation, which involves a square root and therefore lives in `ℝ`.
  A float NaN outcome is modelled as `Option.none`.
* The displayed reason string of source line 114 is kept as a list of
  `Reason` values; `renderReasons` reproduces the joined string.
* The per-row score of source lines 104-108 is a function of the row's
  stored (coerced) branding and mileage and of the run's mileage
  mean/std; since it needs `Real.sqrt` it is kept as the derived
  `Row.score` rather than a stored field, so that everything stored
  stays computable.
-/

deriving instance DecidableEq for Except

/-- Cell models one pandas cell of a numeric CSV column: a number, NaN
(missing value), or a genuinely non-numeric string. -/
inductive Cell where
  | num (q : ℚ)
  | nan
  | str (s : String)
deriving DecidableEq

/-- isna models `pd.isna` on a cell: true exactly on NaN. -/
def Cell.isna : Cell → Bool
  | .nan => true
  | _ => false

/-- numOk is true when numeric operations on the cell cannot raise:
the cell is not a non-numeric string. -/
def numOk : Cell → Bool
  | .str _ => false
  | _ => true

/-- Train models one roster row after the normaliser (source lines
47-61): required columns present, `fitness_valid_until` parsed with
NaT as `none`. -/
structure Train where
  train_id : String
  fitness_valid_until : Option Int
  job_card_open : Bool
  branding_priority : Cell
  mileage_last_week : Cell
  needs_cleaning : Bool
  bay_position : Option Int
deriving DecidableEq

/-- RawDate models the raw content of a `fitness_valid_until` cell
before parsing: either a parsable date or unparsable text. -/
inductive RawDate where
  | valid (d : Int)
  | invalid
deriving DecidableEq

/-- Modelled from source line 61:
`pd.to_datetime(df["fitness_valid_until"], errors="coerce")` turns an
unparsable cell into NaT (`none`), never an error. -/
def to_datetime_coerce : RawDate → Option Int
  | .valid d => some d
  | .invalid => none

/-- JobCard is one row of the job-card table (columns used by the
engine: `train_id` and `severity`). -/
structure JobCard where
  train_id : String
  severity : String
deriving DecidableEq

/-- JobCards is the optional job-card table; `hasSeverity` records
whether the `severity` column is present (source line 89). -/
structure JobCards where
  rows : List JobCard
  hasSeverity : Bool
deriving DecidableEq

/-- CleaningSlots is the cleaning-slot table; `availableCol` is the
`available` column when present (`none` models a table without that
column, source line 67). -/
structure CleaningSlots where
  availableCol : Option (List Bool)
deriving DecidableEq

/-- cleaningCapacity models source lines 66-68: capacity is the number
of rows with `available == True`, known only when the table is supplied
and has an `available` column. -/
def cleaningCapacity : Option CleaningSlots → Option Nat
  | none => none
  | some cs => cs.availableCol.map (fun col => (col.filter (fun b => b)).length)

/-- Reason is one entry of the per-row `reason` list (source lines
82, 92, 96, 102). -/
inductive Reason where
  | expiredFitness
  | openJobCard (severity : String)
  | needsCleaning
  | noCleaningSlot
deriving DecidableEq

/-- render gives the literal string the source appends. -/
def Reason.render : Reason → String
  | .expiredFitness => "Expired fitness"
  | .openJobCard sev => "Open job-card (" ++ sev ++ ")"
  | .needsCleaning => "Needs cleaning"
  | .noCleaningSlot => "No cleaning slot available"

/-- renderReasons reproduces source line 114:
`"; ".join(reason) if reason else "OK"`. -/
def renderReasons (rs : List Reason) : String :=
  if rs.isEmpty then "OK" else String.intercalate "; " (rs.map Reason.render)

/-- Row is one output row of `evaluate` (source lines 110-118), minus
the stored score, which is recovered by the derived `Row.score`. -/
structure Row where
  train_id : String
  eligible : Bool
  reason : List Reason
  branding_priority : Int
  mileage_last_week : ℚ
  bay_position : Option Int
deriving DecidableEq

/-- pyInt is Python `int(...)` on a float: truncation toward zero. -/
def pyInt (q : ℚ) : Int :=
  if 0 ≤ q then ⌊q⌋ else ⌈q⌉

/-- coerceBranding models source line 105:
`int(r.get("branding_priority", 0)) if not pd.isna(...) else 0`;
a non-numeric string makes `int(...)` raise. -/
def coerceBranding : Cell → Except String Int
  | .num q => .ok (pyInt q)
  | .nan => .ok 0
  | .str s => .error ("invalid literal for int with base 10: " ++ s)

/-- coerceMileage models source line 106:
`float(r.get("mileage_last_week", 0)) if not pd.isna(...) else 0`;
a non-numeric string makes `float(...)` raise. -/
def coerceMileage : Cell → Except String ℚ
  | .num q => .ok q
  | .nan => .ok 0
  | .str s => .error ("could not convert string to float: " ++ s)

/-- colNums models the NaN-skipping numeric view of a column that
pandas `.mean()` / `.std()` take (source lines 72-73): NaN cells are
skipped, and a non-numeric string in the column makes the reduction
raise. -/
def colNums : List Cell → Except String (List ℚ)
  | [] => .ok []
  | .num q :: cs =>
    match colNums cs with
    | .ok xs => .ok (q :: xs)
    | .error e => .error e
  | .nan :: cs => colNums cs
  | .str s :: _ => .error ("unsupported operand type for mean: " ++ s)

/-- mileageCol is the `mileage_last_week` column of the roster. -/
def mileageCol (df : List Train) : List Cell :=
  df.map (fun r => r.mileage_last_week)

/-- qMean is pandas `.mean()` over the non-NaN values: NaN (`none`)
when there are no values. -/
def qMean (xs : List ℚ) : Option ℚ :=
  if xs.length = 0 then none else some (xs.sum / (xs.length : ℚ))

/-- qSampleVar is the square of pandas `.std()` (sample variance,
`ddof = 1`) over the non-NaN values: NaN (`none`) when fewer than two
values exist. -/
def qSampleVar (xs : List ℚ) : Option ℚ :=
  if xs.length < 2 then none
  else some ((xs.map (fun x => (x - xs.sum / (xs.length : ℚ)) ^ 2)).sum / ((xs.length : ℚ) - 1))

/-- flooredStd models `df[...].std() or 1` (source line 73) on a
defined variance: the std is `Real.sqrt v`, and Python `or` replaces it
by 1 exactly when it equals 0, i.e. when `v = 0` (a variance is never
negative). -/
noncomputable def flooredStd (v : ℚ) : ℝ :=
  if v = 0 then 1 else Real.sqrt v

/-- scoreVal is the score of source lines 107-108 computed from the
run statistics `(mean, variance)` (NaN components are `none`) and the
row's coerced branding and mileage; a NaN mean or std makes the whole
score NaN (`none`). -/
noncomputable def scoreVal (stats : Option ℚ × Option ℚ) (b : Int) (m : ℚ) : Option ℝ :=
  match stats with
  | (some mu, some v) => some ((b : ℝ) * 1000 - (((m - mu : ℚ) : ℝ) / flooredStd v) * 100)
  | _ => none

/-- score recovers the stored `score` field of the source's output row
from the stored branding and mileage and the run statistics. -/
noncomputable def Row.score (stats : Option ℚ × Option ℚ) (r : Row) : Option ℝ :=
  scoreVal stats r.branding_priority r.mileage_last_week

/-- fitnessBad is the test of source line 80:
`pd.isna(r["fitness_valid_until"]) or r["fitness_valid_until"] < today`. -/
def fitnessBad (today : Int) (r : Train) : Bool :=
  match r.fitness_valid_until with
  | none => true
  | some d => decide (d < today)

/-- jobCardHit is the test of source line 85:
`job_cards is not None and r["train_id"] in job_cards["train_id"].values`. -/
def jobCardHit (jc? : Option JobCards) (r : Train) : Bool :=
  match jc? with
  | none => false
  | some jc => jc.rows.any (fun j => j.train_id == r.train_id)

/-- jcSeverity is the severity lookup of source lines 87-91: the first
matching row's severity when the column exists, else "N/A". -/
def jcSeverity (jc : JobCards) (r : Train) : String :=
  if jc.hasSeverity then
    match jc.rows.find? (fun j => j.train_id == r.train_id) with
    | some j => j.severity
    | none => "N/A"
  else "N/A"

/-- eligAfterJob is the value of the `eligible` flag after the fitness
and job-card checks (source lines 77-92), just before the cleaning
check. -/
def eligAfterJob (today : Int) (jc? : Option JobCards) (r : Train) : Bool :=
  !fitnessBad today r && !jobCardHit jc? r

/-- consumesSlot tells whether the row increments `cleaning_used`
(source lines 95-99): it needs cleaning, is still eligible, the
capacity is known, and capacity remains. -/
def consumesSlot (today : Int) (jc? : Option JobCards) (cap? : Option Nat) (used : Nat) (r : Train) : Bool :=
  r.needs_cleaning && eligAfterJob today jc? r &&
    (match cap? with
     | some c => decide (used < c)
     | none => false)

/-- cleanBlocked tells whether the row takes the exhausted-capacity
branch (source lines 100-102). -/
def cleanBlocked (today : Int) (jc? : Option JobCards) (cap? : Option Nat) (used : Nat) (r : Train) : Bool :=
  r.needs_cleaning && eligAfterJob today jc? r &&
    (match cap? with
     | some c => decide (c ≤ used)
     | none => false)

/-- stepUsed is the updated `cleaning_used` counter after one row. -/
def stepUsed (today : Int) (jc? : Option JobCards) (cap? : Option Nat) (used : Nat) (r : Train) : Nat :=
  if consumesSlot today jc? cap? used r then used + 1 else used

/-- usedAfter is the `cleaning_used` counter after processing a list of
rows in input order, starting from `used`. -/
def usedAfter (today : Int) (jc? : Option JobCards) (cap? : Option Nat) (used : Nat) (ts : List Train) : Nat :=
  ts.foldl (stepUsed today jc? cap?) used

/-- eligFinal is the final `eligible` flag of the row (source lines
77-102). -/
def eligFinal (today : Int) (jc? : Option JobCards) (cap? : Option Nat) (used : Nat) (r : Train) : Bool :=
  eligAfterJob today jc? r && !cleanBlocked today jc? cap? used r

/-- rowReasons is the accumulated `reason` list of the row, in source
order: fitness (line 82), job-card (line 92), cleaning (lines 96,
102). -/
def rowReasons (today : Int) (jc? : Option JobCards) (cap? : Option Nat) (used : Nat) (r : Train) : List Reason :=
  (if fitnessBad today r then [Reason.expiredFitness] else []) ++
  (match jc? with
   | some jc => if jobCardHit (some jc) r then [Reason.openJobCard (jcSeverity jc r)] else []
   | none => []) ++
  (if r.needs_cleaning then
     Reason.needsCleaning ::
       (if cleanBlocked today jc? cap? used r then [Reason.noCleaningSlot] else [])
   else [])

/-- mkRow assembles the output row of source lines 110-118 from the
already-coerced branding and mileage. -/
def mkRow (today : Int) (jc? : Option JobCards) (cap? : Option Nat) (used : Nat) (r : Train) (b : Int) (m : ℚ) : Row :=
  { train_id := r.train_id
    eligible := eligFinal today jc? cap? used r
    reason := rowReasons today jc? cap? used r
    branding_priority := b
    mileage_last_week := m
    bay_position := r.bay_position }

/-- evalRow processes one roster row of the loop of source lines
75-118: it produces the output row and the updated `cleaning_used`
counter, or raises when a numeric coercion raises (branding first, as
in the source). -/
def evalRow (today : Int) (jc? : Option JobCards) (cap? : Option Nat) (used : Nat) (r : Train) : Except String (Row × Nat) :=
  match coerceBranding r.branding_priority, coerceMileage r.mileage_last_week with
  | .ok b, .ok m => .ok (mkRow today jc? cap? used r b m, stepUsed today jc? cap? used r)
  | .error e, _ => .error e
  | .ok _, .error e => .error e

/-- evalRows folds `evalRow` over the roster in input order, threading
the `cleaning_used` counter. -/
def evalRows (today : Int) (jc? : Option JobCards) (cap? : Option Nat) : Nat → List Train → Except String (List Row)
  | _, [] => .ok []
  | used, r :: rs =>
    match evalRow today jc? cap? used r with
    | .error e => .error e
    | .ok (row, used') =>
      match evalRows today jc? cap? used' rs with
      | .error e => .error e
      | .ok out => .ok (row :: out)

/-- evaluate is the engine of source lines 64-119.  The mean/std of
source lines 72-73 are computed over the full `mileage_last_week`
column before the loop; their only effect inside `evaluate` is to
raise on an object-dtype column (the numeric values feed the derived
`Row.score`). -/
def evaluate (df : List Train) (today : Int) (job_cards : Option JobCards) (cleaning_slots : Option CleaningSlots) : Except String (List Row) :=
  match colNums (mileageCol df) with
  | .error e => .error e
  | .ok _ => evalRows today job_cards (cleaningCapacity cleaning_slots) 0 df

/-- exceptOk tells whether a computation succeeded. -/
def exceptOk {e a : Type} : Except e a → Bool
  | .ok _ => true
  | .error _ => false

/-- qScoreGT decides `score x > score y` for two rows of the same run
without evaluating the square root.  With shared statistics
`(mean, v)` and `std = flooredStd v`, writing
`A = (bx - by) * 1000` and `B = (mx - my) * 100`, the comparison
`score x > score y` is `A * std > B`; for `v = 0` the std is 1, and
for `v > 0` the inequality `A * sqrt v > B` is decided by sign
analysis and squaring. -/
def qScoreGT (v A B : ℚ) : Bool :=
  if v = 0 then decide (B < A)
  else if B < 0 then decide (0 ≤ A) || decide (A ^ 2 * v < B ^ 2)
  else if B = 0 then decide (0 < A)
  else decide (0 < A) && decide (B ^ 2 < A ^ 2 * v)

/-- rowScoreGT compares two output rows of one run by score,
descending; rows of a run with NaN statistics all have NaN scores and
compare false (pandas `sort_values` keeps NaNs last, in original
order). -/
def rowScoreGT (stats : Option ℚ × Option ℚ) (x y : Row) : Bool :=
  match stats with
  | (some _, some v) =>
    qScoreGT v (((x.branding_priority : ℚ) - (y.branding_priority : ℚ)) * 1000)
      ((x.mileage_last_week - y.mileage_last_week) * 100)
  | _ => false

/-- insertDesc inserts into a descending-sorted list, keeping earlier
elements first among ties (a stable, deterministic realisation of
`sort_values(ascending=False)`). -/
def insertDesc (gt : Row → Row → Bool) (x : Row) : List Row → List Row
  | [] => [x]
  | y :: ys => if gt y x then y :: insertDesc gt x ys else x :: y :: ys

/-- sortDesc is insertion sort with `insertDesc`. -/
def sortDesc (gt : Row → Row → Bool) : List Row → List Row
  | [] => []
  | x :: xs => insertDesc gt x (sortDesc gt xs)

/-- allocate is the rank-and-assign block of source lines 130-142:
split by eligibility, sort the eligible rows by score descending, take
the service quota, then the standby quota, and send everything else to
Maintenance/Blocked.  `stats` are the run's mileage statistics, which
determine the stored scores the source sorts by. -/
def allocate (stats : Option ℚ × Option ℚ) (evaluated : List Row) (required_service_count standby_count : Nat) : List (Row × String) :=
  let eligible_df := sortDesc (rowScoreGT stats) (evaluated.filter (fun r => r.eligible))
  let ineligible_df := evaluated.filter (fun r => !r.eligible)
  let service := eligible_df.take required_service_count
  let standby := (eligible_df.drop required_service_count).take standby_count
  let remaining := eligible_df.drop (required_service_count + standby_count) ++ ineligible_df
  service.map (fun r => (r, "Service")) ++
    standby.map (fun r => (r, "Standby")) ++
    remaining.map (fun r => (r, "Maintenance/Blocked"))

/-- EvalCall packages the four inputs of one `evaluate` invocation. -/
structure EvalCall where
  df : List Train
  today : Int
  job_cards : Option JobCards
  cleaning_slots : Option CleaningSlots

/-- runCalls runs a sequence of `evaluate` invocations in order; the
engine keeps no state between calls (the counter of source line 70 and
the statistics of lines 72-73 are locals of `evaluate`), so a session
is just the list of independent results. -/
def runCalls (calls : List EvalCall) : List (Except String (List Row)) :=
  calls.map (fun c => evaluate c.df c.today c.job_cards c.cleaning_slots)

/-- setJobCardOpen overwrites the informational `job_card_open`
field. -/
def setJobCardOpen (r : Train) (b : Bool) : Train :=
  { r with job_card_open := b }

/-- sameExceptJobCardOpen relates two roster rows that agree on every
field except possibly `job_card_open`. -/
def sameExceptJobCardOpen (r r' : Train) : Prop :=
  r.train_id = r'.train_id ∧
  r.fitness_valid_until = r'.fitness_valid_until ∧
  r.branding_priority = r'.branding_priority ∧
  r.mileage_last_week = r'.mileage_last_week ∧
  r.needs_cleaning = r'.needs_cleaning ∧
  r.bay_position = r'.bay_position

/-- specScorePopulation follows the specification's words for claim
C4: mileage mean and standard deviation as population statistics over
the full table (std defaulting to 1 whenever it is zero or undefined),
then `score = branding * 1000 - ((mileage - mean) / std) * 100`. -/
noncomputable def specScorePopulation (df : List Train) (b : Int) (m : ℚ) : Option ℝ :=
  match colNums (mileageCol df) with
  | .error _ => none
  | .ok xs =>
    if xs.length = 0 then none
    else
      some ((b : ℝ) * 1000 -
        (((m - xs.sum / (xs.length : ℚ) : ℚ) : ℝ) /
          flooredStd ((xs.map (fun x => (x - xs.sum / (xs.length : ℚ)) ^ 2)).sum / (xs.length : ℚ))) * 100)

/-- specScoreSample states the amended claim C4 formula: NaN-skipping
mean, sample standard deviation (ddof 1) floored to 1 when zero, NaN
(`none`) when fewer than two non-null mileage values exist. -/
noncomputable def specScoreSample (xs : List ℚ) (b : Int) (m : ℚ) : Option ℝ :=
  if xs.length < 2 then none
  else
    some ((b : ℝ) * 1000 -
      (((m - xs.sum / (xs.length : ℚ) : ℚ) : ℝ) /
        flooredStd ((xs.map (fun x => (x - xs.sum / (xs.length : ℚ)) ^ 2)).sum / ((xs.length : ℚ) - 1))) * 100)

/-- mkTrain builds a roster row with the normaliser defaults. -/
def mkTrain (id : String) (fit : Option Int) (b m : Cell) (needs : Bool) : Train :=
  { train_id := id
    fitness_valid_until := fit
    job_card_open := false
    branding_priority := b
    mileage_last_week := m
    needs_cleaning := needs
    bay_position := none }

/-- Concrete evaluation rows used to exercise `allocate`. -/
def rowEligA : Row :=
  { train_id := "A", eligible := true, reason := [], branding_priority := 2,
    mileage_last_week := 0, bay_position := none }

def rowEligB : Row :=
  { train_id := "B", eligible := true, reason := [Reason.needsCleaning], branding_priority := 0,
    mileage_last_week := 2, bay_position := none }

def rowInel : Row :=
  { train_id := "C", eligible := false, reason := [Reason.expiredFitness], branding_priority := 0,
    mileage_last_week := 0, bay_position := none }

/-- Sample roster rows for the concrete runs below. -/
def trainFit : Train := mkTrain "A" (some 10) (Cell.num 2) (Cell.num 0) false

def trainExpired : Train := mkTrain "C" none (Cell.num 0) (Cell.num 4) false

def trainClean1 : Train := mkTrain "D" (some 10) (Cell.num 0) (Cell.num 2) true

def trainClean2 : Train := mkTrain "E" (some 10) (Cell.num 1) (Cell.num 6) true

def trainNanFields : Train := mkTrain "F" (some 10) Cell.nan Cell.nan false

def trainStrMileage : Train := mkTrain "G" (some 10) (Cell.num 0) (Cell.str "abc") false

def trainBadDate : Train :=
  mkTrain "H" (to_datetime_coerce RawDate.invalid) (Cell.num 0) (Cell.num 1) false

/-- A job-card table with an open card (severity high) for train "A". -/
def jcTableA : JobCards :=
  { rows := [ { train_id := "A", severity := "high" } ], hasSeverity := true }

/-- A cleaning-slot table with one available slot. -/
def slotsOne : CleaningSlots := { availableCol := some [true, false] }

/-- A cleaning-slot table without an `available` column. -/
def slotsNoCol : CleaningSlots := { availableCol := none }

/-- Two-train roster with mileages 0 and 2 (sample variance 2,
population variance 1). -/
def dfC4 : List Train :=
  [mkTrain "P" (some 10) (Cell.num 0) (Cell.num 0) false,
   mkTrain "Q" (some 10) (Cell.num 0) (Cell.num 2) false]

/-- Two-train roster with equal mileages and differing branding. -/
def dfC6 : List Train :=
  [mkTrain "R" (some 10) (Cell.num 1) (Cell.num 0) false,
   mkTrain "S" (some 10) (Cell.num 0) (Cell.num 0) false]

/-- Expected outputs of the concrete runs. -/
def rowW2a : Row :=
  { train_id := "A", eligible := false, reason := [Reason.openJobCard "high"],
    branding_priority := 2, mileage_last_week := 0, bay_position := none }

def rowW2b : Row :=
  { train_id := "C", eligible := false, reason := [Reason.expiredFitness],
    branding_priority := 0, mileage_last_week := 4, bay_position := none }

def rowW3a : Row :=
  { train_id := "D", eligible := true, reason := [Reason.needsCleaning],
    branding_priority := 0, mileage_last_week := 2, bay_position := none }

def rowW3b : Row :=
  { train_id := "E", eligible := false, reason := [Reason.needsCleaning, Reason.noCleaningSlot],
    branding_priority := 1, mileage_last_week := 6, bay_position := none }

def rowP4 : Row :=
  { train_id := "P", eligible := true, reason := [], branding_priority := 0,
    mileage_last_week := 0, bay_position := none }

def rowQ4 : Row :=
  { train_id := "Q", eligible := true, reason := [], branding_priority := 0,
    mileage_last_week := 2, bay_position := none }

def rowW5 : Row :=
  { train_id := "F", eligible := true, reason := [], branding_priority := 0,
    mileage_last_week := 0, bay_position := none }

def rowW6a : Row :=
  { train_id := "R", eligible := true, reason := [], branding_priority := 1,
    mileage_last_week := 0, bay_position := none }

def rowW6b : Row :=
  { train_id := "S", eligible := true, reason := [], branding_priority := 0,
    mileage_last_week := 0, bay_position := none }

def rowW7 : Row :=
  { train_id := "H", eligible := false, reason := [Reason.expiredFitness],
    branding_priority := 0, mileage_last_week := 1, bay_position := none }

def rowW10 : Row :=
  { train_id := "D", eligible := true, reason := [Reason.needsCleaning],
    branding_priority := 0, mileage_last_week := 2, bay_position := none }

theorem usedAfter_nil (today : Int) (jc? : Option JobCards) (cap? : Option Nat) (used : Nat) :
    usedAfter today jc? cap? used [] = used := rfl

theorem usedAfter_cons (today : Int) (jc? : Option JobCards) (cap? : Option Nat) (used : Nat) (r : Train) (rs : List Train) :
    usedAfter today jc? cap? used (r :: rs) =
      usedAfter today jc? cap? (stepUsed today jc? cap? used r) rs := rfl

theorem evalRow_ok_iff (today : Int) (jc? : Option JobCards) (cap? : Option Nat) (used : Nat) (r : Train) (row : Row) (used' : Nat) :
    evalRow today jc? cap? used r = .ok (row, used') ↔
      ∃ b m, coerceBranding r.branding_priority = .ok b ∧
        coerceMileage r.mileage_last_week = .ok m ∧
        row = mkRow today jc? cap? used r b m ∧
        used' = stepUsed today jc? cap? used r := by
  unfold evalRow
  cases hb : coerceBranding r.branding_priority <;>
    cases hm : coerceMileage r.mileage_last_week <;>
      simp [eq_comm, and_comm]

theorem evalRows_spec (today : Int) (jc? : Option JobCards) (cap? : Option Nat) :
    ∀ (ts : List Train) (used : Nat) (out : List Row),
      evalRows today jc? cap? used ts = .ok out →
      out.length = ts.length ∧
      ∀ (i : Nat) (r : Train), ts[i]? = some r →
        ∃ b m, coerceBranding r.branding_priority = .ok b ∧
          coerceMileage r.mileage_last_week = .ok m ∧
          out[i]? = some (mkRow today jc? cap?
            (usedAfter today jc? cap? used (ts.take i)) r b m) := by
  intro ts
  induction ts with
  | nil =>
    intro used out h
    simp only [evalRows] at h
    cases h
    exact ⟨rfl, by intro i r hr; simp at hr⟩
  | cons r rs ih =>
    intro used out h
    simp only [evalRows] at h
    cases he : evalRow today jc? cap? used r with
    | error e => rw [he] at h; cases h
    | ok p =>
      obtain ⟨row, used'⟩ := p
      rw [he] at h
      simp only [] at h
      cases ht : evalRows today jc? cap? used' rs with
      | error e => rw [ht] at h; cases h
      | ok out' =>
        rw [ht] at h
        cases h
        obtain ⟨b, m, hb, hm, hrow, hused⟩ := (evalRow_ok_iff today jc? cap? used r row used').mp he
        obtain ⟨hlen, hchar⟩ := ih used' out' ht
        refine ⟨by simp [hlen], ?_⟩
        intro i x hx
        cases i with
        | zero =>
          simp only [List.getElem?_cons_zero, Option.some.injEq] at hx
          subst hx
          exact ⟨b, m, hb, hm, by simp [hrow, usedAfter_nil]⟩
        | succ i =>
          simp only [List.getElem?_cons_succ] at hx
          obtain ⟨b', m', hb', hm', hout⟩ := hchar i x hx
          refine ⟨b', m', hb', hm', ?_⟩
          simp only [List.getElem?_cons_succ, List.take_succ_cons, usedAfter_cons, hout, ← hused]

theorem evaluate_spec (df : List Train) (today : Int) (jc? : Option JobCards) (cs? : Option CleaningSlots) (out : List Row) :
    evaluate df today jc? cs? = .ok out →
    out.length = df.length ∧
    ∀ (i : Nat) (r : Train), df[i]? = some r →
      ∃ b m, coerceBranding r.branding_priority = .ok b ∧
        coerceMileage r.mileage_last_week = .ok m ∧
        out[i]? = some (mkRow today jc? (cleaningCapacity cs?)
          (usedAfter today jc? (cleaningCapacity cs?) 0 (df.take i)) r b m) := by
  intro h
  unfold evaluate at h
  cases hcol : colNums (mileageCol df) with
  | error e => rw [hcol] at h; cases h
  | ok xs =>
    rw [hcol] at h
    exact evalRows_spec today jc? (cleaningCapacity cs?) df 0 out h

theorem all_and_split {a : Type} (l : List a) (f g : a → Bool) :
    l.all (fun x => f x && g x) = (l.all f && l.all g) := by
  induction l with
  | nil => rfl
  | cons x xs ih =>
    simp only [List.all_cons, ih]
    cases f x <;> cases g x <;> cases xs.all f <;> cases xs.all g <;> rfl

theorem exceptOk_colNums : ∀ cells : List Cell, exceptOk (colNums cells) = cells.all numOk := by
  intro cells
  induction cells with
  | nil => rfl
  | cons cell cs ih =>
    cases cell with
    | num q =>
      simp only [colNums]
      cases h : colNums cs with
      | ok xs => rw [h] at ih; simpa [numOk, exceptOk] using ih
      | error e => rw [h] at ih; simpa [numOk, exceptOk] using ih
    | nan => simpa [colNums, numOk] using ih
    | str s => simp [colNums, numOk, exceptOk]

theorem exceptOk_evalRows (today : Int) (jc? : Option JobCards) (cap? : Option Nat) :
    ∀ (ts : List Train) (used : Nat),
      exceptOk (evalRows today jc? cap? used ts) =
        ts.all (fun r => numOk r.branding_priority && numOk r.mileage_last_week) := by
  intro ts
  induction ts with
  | nil => intro used; rfl
  | cons r rs ih =>
    intro used
    simp only [evalRows, List.all_cons]
    cases hbc : r.branding_priority <;> cases hmc : r.mileage_last_week <;>
      simp only [evalRow, coerceBranding, coerceMileage, hbc, hmc, numOk, exceptOk,
        Bool.false_and, Bool.and_false, Bool.true_and, Bool.and_true] <;>
      first
        | rfl
        | (cases ht : evalRows today jc? cap? (stepUsed today jc? cap? used r) rs with
            | ok out =>
              have ih' := ih (stepUsed today jc? cap? used r)
              rw [ht] at ih'
              simpa [exceptOk, numOk] using ih'
            | error e =>
              have ih' := ih (stepUsed today jc? cap? used r)
              rw [ht] at ih'
              simpa [exceptOk, numOk] using ih')

theorem all_map_comp {a b : Type} (l : List a) (f : a → b) (p : b → Bool) :
    (l.map f).all p = l.all (fun x => p (f x)) := by
  induction l with
  | nil => rfl
  | cons x xs ih => simp [List.all_cons, ih]

theorem exceptOk_evaluate (df : List Train) (today : Int) (jc? : Option JobCards) (cs? : Option CleaningSlots) :
    exceptOk (evaluate df today jc? cs?) =
      df.all (fun r => numOk r.branding_priority && numOk r.mileage_last_week) := by
  have hc := exceptOk_colNums (mileageCol df)
  have h2 : (mileageCol df).all numOk = df.all (fun r => numOk r.mileage_last_week) := by
    simpa [mileageCol] using all_map_comp df (fun r => r.mileage_last_week) numOk
  unfold evaluate
  cases hcol : colNums (mileageCol df) with
  | error e =>
    rw [hcol] at hc
    simp only [exceptOk] at hc
    have hm : df.all (fun r => numOk r.mileage_last_week) = false := by
      rw [← h2]; exact hc.symm
    rw [all_and_split, hm]
    simp [exceptOk]
  | ok xs => exact exceptOk_evalRows today jc? (cleaningCapacity cs?) df 0

theorem needs_and_elig_eq_consumes (today : Int) (jc? : Option JobCards) (c used : Nat) (r : Train) :
    (r.needs_cleaning && eligFinal today jc? (some c) used r) =
      consumesSlot today jc? (some c) used r := by
  unfold eligFinal cleanBlocked consumesSlot
  by_cases h : used < c
  · have h2 : ¬ c ≤ used := by omega
    cases r.needs_cleaning <;> cases eligAfterJob today jc? r <;> simp [h, h2]
  · have h2 : c ≤ used := by omega
    cases r.needs_cleaning <;> cases eligAfterJob today jc? r <;> simp [h, h2]

theorem evalRows_cleanCount (today : Int) (jc? : Option JobCards) (c : Nat) :
    ∀ (ts : List Train) (used : Nat) (out : List Row),
      evalRows today jc? (some c) used ts = .ok out → used ≤ c →
      ((ts.zip out).countP fun p => p.1.needs_cleaning && p.2.eligible) + used ≤ c := by
  intro ts
  induction ts with
  | nil =>
    intro used out h hle
    cases h
    simpa using hle
  | cons r rs ih =>
    intro used out h hle
    simp only [evalRows] at h
    cases he : evalRow today jc? (some c) used r with
    | error e => rw [he] at h; cases h
    | ok p =>
      obtain ⟨row, used'⟩ := p
      rw [he] at h
      simp only [] at h
      cases ht : evalRows today jc? (some c) used' rs with
      | error e => rw [ht] at h; cases h
      | ok out' =>
        rw [ht] at h
        cases h
        obtain ⟨b, m, hb, hm, hrow, hused⟩ := (evalRow_ok_iff today jc? (some c) used r row used').mp he
        subst hrow hused
        rw [List.zip_cons_cons, List.countP_cons]
        have hcons : ((fun p : Train × Row => p.1.needs_cleaning && p.2.eligible)
            (r, mkRow today jc? (some c) used r b m)) =
            consumesSlot today jc? (some c) used r := by
          simpa [mkRow] using needs_and_elig_eq_consumes today jc? c used r
        by_cases hcs : consumesSlot today jc? (some c) used r = true
        · have hlt : used < c := by
            have h3 := hcs
            simp only [consumesSlot, Bool.and_eq_true, decide_eq_true_eq] at h3
            exact h3.2
          have hstep : stepUsed today jc? (some c) used r = used + 1 := by
            simp [stepUsed, hcs]
          rw [hstep] at ht
          have hrec := ih (used + 1) out' ht (by omega)
          simp only [hcons, hcs, if_true]
          omega
        · have hcs' : consumesSlot today jc? (some c) used r = false := by
            simpa using hcs
          have hstep : stepUsed today jc? (some c) used r = used := by
            simp [stepUsed, hcs']
          rw [hstep] at ht
          have hrec := ih used out' ht hle
          simp [hcons, hcs']
          omega

theorem insertDesc_perm (gt : Row → Row → Bool) (x : Row) :
    ∀ l : List Row, (insertDesc gt x l).Perm (x :: l) := by
  intro l
  induction l with
  | nil => simp [insertDesc]
  | cons y ys ih =>
    simp only [insertDesc]
    by_cases h : gt y x = true
    · rw [if_pos h]
      exact (ih.cons y).trans (List.Perm.swap x y ys)
    · rw [if_neg h]

theorem sortDesc_perm (gt : Row → Row → Bool) :
    ∀ l : List Row, (sortDesc gt l).Perm l := by
  intro l
  induction l with
  | nil => simp [sortDesc]
  | cons x xs ih =>
    simp only [sortDesc]
    exact (insertDesc_perm gt x (sortDesc gt xs)).trans (ih.cons x)

theorem sortDesc_length (gt : Row → Row → Bool) (l : List Row) :
    (sortDesc gt l).length = l.length :=
  (sortDesc_perm gt l).length_eq

theorem filter_label_length (l : List Row) (s t : String) :
    ((l.map fun r => (r, s)).filter fun p => p.2 == t).length =
      if s == t then l.length else 0 := by
  induction l with
  | nil => simp
  | cons x xs ih =>
    simp only [List.map_cons, List.filter_cons]
    by_cases h : (s == t) = true
    · simp only [h, if_true, List.length_cons, ih]
    · have h' : (s == t) = false := by simpa using h
      simp only [h', Bool.false_eq_true, if_false, ih]

theorem qSampleVar_nonneg (xs : List ℚ) (v : ℚ) (h : qSampleVar xs = some v) : 0 ≤ v := by
  unfold qSampleVar at h
  by_cases hlen : xs.length < 2
  · rw [if_pos hlen] at h; cases h
  · rw [if_neg hlen] at h
    cases h
    apply div_nonneg
    · apply List.sum_nonneg
      intro x hx
      obtain ⟨y, _, hy⟩ := List.mem_map.mp hx
      rw [← hy]
      positivity
    · have h1 : 2 ≤ xs.length := by omega
      have h2 : (2 : ℚ) ≤ (xs.length : ℚ) := by exact_mod_cast h1
      linarith

theorem flooredStd_pos (v : ℚ) (hv : 0 ≤ v) : 0 < flooredStd v := by
  unfold flooredStd
  by_cases h : v = 0
  · rw [if_pos h]; norm_num
  · rw [if_neg h]
    apply Real.sqrt_pos.mpr
    have : (0 : ℚ) < v := lt_of_le_of_ne hv (Ne.symm h)
    exact_mod_cast this

theorem map_fst_map_label (l : List Row) (s : String) :
    ((l.map fun r => (r, s)).map Prod.fst) = l := by
  induction l with
  | nil => rfl
  | cons x xs ih => simp [ih]

theorem allocate_fst_perm (stats : Option ℚ × Option ℚ) (ev : List Row) (sq sb : Nat) :
    ((allocate stats ev sq sb).map Prod.fst).Perm ev := by
  unfold allocate
  have hperm := sortDesc_perm (rowScoreGT stats) (ev.filter fun r => r.eligible)
  simp only [List.map_append, map_fst_map_label]
  have h1 : ((sortDesc (rowScoreGT stats) (ev.filter fun r => r.eligible)).drop sq).drop sb =
      (sortDesc (rowScoreGT stats) (ev.filter fun r => r.eligible)).drop (sq + sb) := by
    rw [List.drop_drop, Nat.add_comm]
  have hseg : (sortDesc (rowScoreGT stats) (ev.filter fun r => r.eligible)).take sq ++
      (((sortDesc (rowScoreGT stats) (ev.filter fun r => r.eligible)).drop sq).take sb ++
        ((sortDesc (rowScoreGT stats) (ev.filter fun r => r.eligible)).drop (sq + sb) ++
          ev.filter (fun r => !r.eligible))) =
      sortDesc (rowScoreGT stats) (ev.filter fun r => r.eligible) ++
        ev.filter (fun r => !r.eligible) := by
    rw [← h1, ← List.append_assoc
      (((sortDesc (rowScoreGT stats) (ev.filter fun r => r.eligible)).drop sq).take sb),
      List.take_append_drop, ← List.append_assoc, List.take_append_drop]
  rw [← List.append_assoc] at hseg
  rw [hseg]
  exact (hperm.append_right _).trans (List.filter_append_perm _ ev)

/-- Claim C1: allocate partitions the full fleet: every input evaluation
row appears in exactly one of the three labelled buckets (as a
permutation of the input together with constant per-segment labels),
`|Service| = min(serviceQuota, |eligible|)`,
`|Standby| = min(standbyQuota, |eligible| - |Service|)`, and
Maintenance/Blocked holds everything else; quotas larger than the
eligible pool raise no error, the buckets simply shrink. -/
theorem C1_allocate_partition (stats : Option ℚ × Option ℚ) (ev : List Row) (sq sb : Nat)
    (hsq : 1 ≤ sq) :
    ((allocate stats ev sq sb).map Prod.fst).Perm ev ∧
    ((allocate stats ev sq sb).filter fun p => p.2 == "Service").length =
      min sq (ev.filter fun r => r.eligible).length ∧
    ((allocate stats ev sq sb).filter fun p => p.2 == "Standby").length =
      min sb ((ev.filter fun r => r.eligible).length -
        min sq (ev.filter fun r => r.eligible).length) ∧
    ((allocate stats ev sq sb).filter fun p => p.2 == "Maintenance/Blocked").length =
      ev.length - min sq (ev.filter fun r => r.eligible).length -
        min sb ((ev.filter fun r => r.eligible).length -
          min sq (ev.filter fun r => r.eligible).length) := by
  have hlen : (ev.filter fun r => r.eligible).length +
      (ev.filter fun r => !r.eligible).length = ev.length := by
    simpa using (List.filter_append_perm (fun r => r.eligible) ev).length_eq
  have hS : (sortDesc (rowScoreGT stats) (ev.filter fun r => r.eligible)).length =
      (ev.filter fun r => r.eligible).length :=
    sortDesc_length _ _
  refine ⟨allocate_fst_perm stats ev sq sb, ?_, ?_, ?_⟩ <;>
    · unfold allocate
      simp only [List.filter_append, List.length_append, filter_label_length,
        List.length_take, List.length_drop, hS]
      simp only [show (("Service" == "Service") = true) from rfl,
        show (("Standby" == "Service") = false) from rfl,
        show (("Maintenance/Blocked" == "Service") = false) from rfl,
        show (("Service" == "Standby") = false) from rfl,
        show (("Standby" == "Standby") = true) from rfl,
        show (("Maintenance/Blocked" == "Standby") = false) from rfl,
        show (("Service" == "Maintenance/Blocked") = false) from rfl,
        show (("Standby" == "Maintenance/Blocked") = false) from rfl,
        show (("Maintenance/Blocked" == "Maintenance/Blocked") = true) from rfl,
        if_true, if_false, List.length_append, List.length_take, List.length_drop, hS]
      simp only [show ((true = true) = True) from by simp,
        show ((false = true) = False) from by simp, if_true, if_false]
      omega

/-- Witness for C1 at a concrete input: quotas 1 and 1 over three
evaluated rows, two of them eligible. -/
theorem C1_allocate_partition_witness :
    ((allocate (none, none) [rowEligB, rowInel, rowEligA] 1 1).map Prod.fst).Perm
      [rowEligB, rowInel, rowEligA] ∧
    ((allocate (none, none) [rowEligB, rowInel, rowEligA] 1 1).filter
      fun p => p.2 == "Service").length = 1 := by
  have h := C1_allocate_partition (none, none) [rowEligB, rowInel, rowEligA] 1 1 (by decide)
  refine ⟨h.1, ?_⟩
  rw [h.2.1]
  decide

theorem fitnessBad_false_iff (today : Int) (r : Train) :
    fitnessBad today r = false ↔ ∃ d, r.fitness_valid_until = some d ∧ ¬ d < today := by
  cases h : r.fitness_valid_until <;> simp [fitnessBad, h]

theorem fitnessBad_true_iff (today : Int) (r : Train) :
    fitnessBad today r = true ↔
      r.fitness_valid_until = none ∨ ∃ d, r.fitness_valid_until = some d ∧ d < today := by
  cases h : r.fitness_valid_until <;> simp [fitnessBad, h]

theorem jobCardHit_false_iff (jc? : Option JobCards) (r : Train) :
    jobCardHit jc? r = false ↔
      ∀ jc, jc? = some jc → ∀ j ∈ jc.rows, j.train_id ≠ r.train_id := by
  cases jc? with
  | none => simp [jobCardHit]
  | some jc =>
    simp only [jobCardHit, Option.some.injEq, forall_eq']
    rw [← Bool.not_eq_true, List.any_eq_true]
    push_neg
    constructor
    · intro h j hj
      have := h j hj
      simpa using this
    · intro h j hj
      simpa using h j hj

theorem jobCardHit_true_iff (jc : JobCards) (r : Train) :
    jobCardHit (some jc) r = true ↔ ∃ j ∈ jc.rows, j.train_id = r.train_id := by
  simp [jobCardHit, List.any_eq_true]

theorem eligFinal_true_iff (today : Int) (jc? : Option JobCards) (cap? : Option Nat)
    (used : Nat) (r : Train) :
    eligFinal today jc? cap? used r = true ↔
      (fitnessBad today r = false ∧ jobCardHit jc? r = false ∧
        (r.needs_cleaning = true → cap? = none ∨ ∃ c, cap? = some c ∧ used < c)) := by
  simp only [eligFinal, cleanBlocked, eligAfterJob]
  cases hf : fitnessBad today r <;> cases hj : jobCardHit jc? r <;>
    cases hn : r.needs_cleaning <;> cases cap? <;>
      simp [Nat.not_le, Nat.not_lt]

theorem expired_mem_reasons (today : Int) (jc? : Option JobCards) (cap? : Option Nat)
    (used : Nat) (r : Train) (h : fitnessBad today r = true) :
    Reason.expiredFitness ∈ rowReasons today jc? cap? used r := by
  simp [rowReasons, h]

theorem openJobCard_mem_reasons (today : Int) (jc? : Option JobCards) (cap? : Option Nat)
    (used : Nat) (r : Train) (jc : JobCards) (hjc : jc? = some jc)
    (h : jobCardHit jc? r = true) :
    Reason.openJobCard (jcSeverity jc r) ∈ rowReasons today jc? cap? used r := by
  subst hjc
  simp [rowReasons, h]

/-- Claim C2: for every output row, eligible is true exactly when the
fitness date is present and not earlier than the reference date, no
job-card row with the train's id exists (when the table is supplied),
and the train either needs no cleaning or, when capacity is known, a
slot was still free when this train's turn (in input order) arrived;
moreover every train with a null or past fitness date is ineligible
with reason "Expired fitness", and every train present in the job-card
table is ineligible with an "Open job-card" reason. -/
theorem C2_eligibility_iff (df : List Train) (today : Int) (jc? : Option JobCards)
    (cs? : Option CleaningSlots) (out : List Row)
    (hok : evaluate df today jc? cs? = .ok out) :
    ∀ i r, df[i]? = some r → ∃ row, out[i]? = some row ∧
      (row.eligible = true ↔
        ((∃ d, r.fitness_valid_until = some d ∧ ¬ d < today) ∧
         (∀ jc, jc? = some jc → ∀ j ∈ jc.rows, j.train_id ≠ r.train_id) ∧
         (r.needs_cleaning = true → cleaningCapacity cs? = none ∨
           ∃ c, cleaningCapacity cs? = some c ∧
             usedAfter today jc? (cleaningCapacity cs?) 0 (df.take i) < c))) ∧
      ((r.fitness_valid_until = none ∨ ∃ d, r.fitness_valid_until = some d ∧ d < today) →
        row.eligible = false ∧ Reason.expiredFitness ∈ row.reason) ∧
      (∀ jc, jc? = some jc → (∃ j ∈ jc.rows, j.train_id = r.train_id) →
        row.eligible = false ∧ ∃ sev, Reason.openJobCard sev ∈ row.reason) := by
  intro i r hr
  obtain ⟨hlen, hchar⟩ := evaluate_spec df today jc? cs? out hok
  obtain ⟨b, m, hb, hm, hout⟩ := hchar i r hr
  refine ⟨_, hout, ?_, ?_, ?_⟩
  · show (mkRow _ _ _ _ _ _ _).eligible = true ↔ _
    simp only [mkRow]
    rw [eligFinal_true_iff]
    constructor
    · rintro ⟨hf, hj, hc⟩
      exact ⟨(fitnessBad_false_iff _ _).mp hf, (jobCardHit_false_iff _ _).mp hj, hc⟩
    · rintro ⟨hf, hj, hc⟩
      exact ⟨(fitnessBad_false_iff _ _).mpr hf, (jobCardHit_false_iff _ _).mpr hj, hc⟩
  · intro hbad
    have hf : fitnessBad today r = true := (fitnessBad_true_iff _ _).mpr hbad
    constructor
    · simp [mkRow, eligFinal, eligAfterJob, hf]
    · simpa [mkRow] using expired_mem_reasons today jc? (cleaningCapacity cs?)
        (usedAfter today jc? (cleaningCapacity cs?) 0 (df.take i)) r hf
  · intro jc hjc hex
    have hj : jobCardHit jc? r = true := by
      subst hjc
      exact (jobCardHit_true_iff jc r).mpr hex
    constructor
    · simp [mkRow, eligFinal, eligAfterJob, hj]
    · exact ⟨jcSeverity jc r, by
        simpa [mkRow] using openJobCard_mem_reasons today jc? (cleaningCapacity cs?)
          (usedAfter today jc? (cleaningCapacity cs?) 0 (df.take i)) r jc hjc hj⟩

/-- Witness for C2 at a concrete run: a fit train blocked by a
job-card and a train with a null fitness date. -/
theorem C2_eligibility_iff_witness :
    evaluate [trainFit, trainExpired] 5 (some jcTableA) none = .ok [rowW2a, rowW2b] ∧
    ∃ row, [rowW2a, rowW2b][1]? = some row ∧ row.eligible = false ∧
      Reason.expiredFitness ∈ row.reason := by
  have hok : evaluate [trainFit, trainExpired] 5 (some jcTableA) none = .ok [rowW2a, rowW2b] := by
    decide
  obtain ⟨row, hrow, _hiff, hfit, _hjc⟩ :=
    C2_eligibility_iff [trainFit, trainExpired] 5 (some jcTableA) none [rowW2a, rowW2b] hok
      1 trainExpired (by decide)
  have h := hfit (Or.inl rfl)
  exact ⟨hok, row, hrow, h.1, h.2⟩

/-- Claim C3: when cleaning capacity is known, the number of eligible
needs-cleaning trains in the output is at most the declared capacity;
capacity is consumed in input row order (the `usedAfter` fold) by
trains that are still eligible at the cleaning check, and any
needs-cleaning train whose turn arrives still eligible after capacity
is exhausted is marked ineligible with reasons containing both "Needs
cleaning" and "No cleaning slot available". -/
theorem C3_cleaning_capacity (df : List Train) (today : Int) (jc? : Option JobCards)
    (cs? : Option CleaningSlots) (out : List Row) (c : Nat)
    (hok : evaluate df today jc? cs? = .ok out)
    (hc : cleaningCapacity cs? = some c) :
    ((df.zip out).countP fun p => p.1.needs_cleaning && p.2.eligible) ≤ c ∧
    ∀ i r, df[i]? = some r → r.needs_cleaning = true →
      eligAfterJob today jc? r = true →
      c ≤ usedAfter today jc? (some c) 0 (df.take i) →
      ∃ row, out[i]? = some row ∧ row.eligible = false ∧
        Reason.needsCleaning ∈ row.reason ∧ Reason.noCleaningSlot ∈ row.reason := by
  have hrows : evalRows today jc? (some c) 0 df = .ok out := by
    unfold evaluate at hok
    cases hcol : colNums (mileageCol df) with
    | error e => rw [hcol] at hok; cases hok
    | ok xs => rw [hcol, hc] at hok; exact hok
  constructor
  · simpa using evalRows_cleanCount today jc? c df 0 out hrows (Nat.zero_le c)
  · intro i r hr hneeds helig hcle
    obtain ⟨hlen, hchar⟩ := evalRows_spec today jc? (some c) df 0 out hrows
    obtain ⟨b, m, hb, hm, hout⟩ := hchar i r hr
    have hblock : cleanBlocked today jc? (some c)
        (usedAfter today jc? (some c) 0 (df.take i)) r = true := by
      simp [cleanBlocked, hneeds, helig, hcle]
    refine ⟨_, hout, ?_, ?_, ?_⟩
    · simp [mkRow, eligFinal, hblock]
    · simp [mkRow, rowReasons, hneeds]
    · simp [mkRow, rowReasons, hneeds, hblock]

/-- Witness for C3 at a concrete run: two needs-cleaning trains and a
single available slot; the second train is blocked. -/
theorem C3_cleaning_capacity_witness :
    evaluate [trainClean1, trainClean2] 5 none (some slotsOne) = .ok [rowW3a, rowW3b] ∧
    (([trainClean1, trainClean2].zip [rowW3a, rowW3b]).countP
      fun p => p.1.needs_cleaning && p.2.eligible) ≤ 1 ∧
    ∃ row, [rowW3a, rowW3b][1]? = some row ∧ row.eligible = false ∧
      Reason.needsCleaning ∈ row.reason ∧ Reason.noCleaningSlot ∈ row.reason := by
  have hok : evaluate [trainClean1, trainClean2] 5 none (some slotsOne) =
      .ok [rowW3a, rowW3b] := by decide
  have h := C3_cleaning_capacity [trainClean1, trainClean2] 5 none (some slotsOne)
    [rowW3a, rowW3b] 1 hok (by decide)
  exact ⟨hok, h.1, h.2 1 trainClean2 (by decide) (by decide) (by decide) (by decide)⟩

theorem scoreVal_eq_specScoreSample (xs : List ℚ) (b : Int) (m : ℚ) :
    scoreVal (qMean xs, qSampleVar xs) b m = specScoreSample xs b m := by
  unfold scoreVal specScoreSample qMean qSampleVar
  by_cases h2 : xs.length < 2
  · rw [if_pos h2]
    by_cases h0 : xs.length = 0 <;> simp [h0, h2]
  · have h0 : ¬ xs.length = 0 := by omega
    simp [h0, h2]

/-- Claim C4 (amended): the mileage mean and standard deviation used
for scoring are computed once per run over the full input column
(including ineligible trains, NaN cells skipped); the std is the
sample standard deviation (ddof 1), floored to 1 only when it is
exactly zero, and it stays NaN (propagating to a NaN score) when fewer
than two non-null mileage values exist; every row's score then equals
`branding * 1000 - ((mileage - mean) / std) * 100` with the row's
coerced branding and mileage. -/
theorem C4_score_formula (df : List Train) (today : Int) (jc? : Option JobCards)
    (cs? : Option CleaningSlots) (out : List Row) (xs : List ℚ)
    (hok : evaluate df today jc? cs? = .ok out)
    (hxs : colNums (mileageCol df) = .ok xs) :
    ∀ (i : Nat) (r : Train), df[i]? = some r → ∃ row, out[i]? = some row ∧
      coerceBranding r.branding_priority = .ok row.branding_priority ∧
      coerceMileage r.mileage_last_week = .ok row.mileage_last_week ∧
      Row.score (qMean xs, qSampleVar xs) row =
        specScoreSample xs row.branding_priority row.mileage_last_week := by
  intro i r hr
  obtain ⟨hlen, hchar⟩ := evaluate_spec df today jc? cs? out hok
  obtain ⟨b, m, hb, hm, hout⟩ := hchar i r hr
  refine ⟨_, hout, ?_, ?_, ?_⟩
  · simpa [mkRow] using hb
  · simpa [mkRow] using hm
  · exact scoreVal_eq_specScoreSample xs _ _

/-- Witness for the amended C4 at a concrete run. -/
theorem C4_score_formula_witness :
    evaluate dfC4 5 none none = .ok [rowP4, rowQ4] ∧
    Row.score (qMean [0, 2], qSampleVar [0, 2]) rowP4 =
      specScoreSample [0, 2] rowP4.branding_priority rowP4.mileage_last_week := by
  have hok : evaluate dfC4 5 none none = .ok [rowP4, rowQ4] := by decide
  obtain ⟨row, hrow, hb, hm, hs⟩ := C4_score_formula dfC4 5 none none [rowP4, rowQ4] [0, 2]
    hok (by decide) 0 (mkTrain "P" (some 10) (Cell.num 0) (Cell.num 0) false) (by decide)
  have heq : rowP4 = row := by simpa using hrow
  exact ⟨hok, heq ▸ hs⟩

/-- Counterexample to claim C4 as stated: with mileages 0 and 2 the
code divides by the sample standard deviation `sqrt 2` (pandas `.std()`
has ddof 1), not by the population standard deviation 1 the claim
prescribes, so the first train's score `100 / sqrt 2` differs from the
claimed value 100; moreover the claim's "std defaults to 1 when
undefined" does not hold in the code, where an undefined std is NaN. -/
theorem C4_population_cex :
    evaluate dfC4 5 none none = .ok [rowP4, rowQ4] ∧
    colNums (mileageCol dfC4) = .ok [0, 2] ∧
    Row.score (qMean [0, 2], qSampleVar [0, 2]) rowP4 ≠ specScorePopulation dfC4 0 0 := by
  refine ⟨by decide, by decide, ?_⟩
  have hμ : qMean [0, 2] = some 1 := by norm_num [qMean]
  have hv : qSampleVar [0, 2] = some 2 := by norm_num [qSampleVar]
  have h1 : Row.score (qMean [0, 2], qSampleVar [0, 2]) rowP4 = some (100 / Real.sqrt 2) := by
    rw [hμ, hv]
    show scoreVal (some 1, some 2) rowP4.branding_priority rowP4.mileage_last_week = _
    rw [show rowP4.branding_priority = 0 from rfl, show rowP4.mileage_last_week = 0 from rfl]
    simp only [scoreVal]
    rw [show flooredStd 2 = Real.sqrt 2 from by
      rw [flooredStd, if_neg (by norm_num)]; norm_num]
    push_cast
    ring_nf
  have h2 : specScorePopulation dfC4 0 0 = some 100 := by
    unfold specScorePopulation
    simp only [show colNums (mileageCol dfC4) = Except.ok [0, 2] from by decide]
    rw [if_neg (by norm_num)]
    have hvar : (([0, 2].map
        (fun x => (x - [0, 2].sum / (([0, 2] : List ℚ).length : ℚ)) ^ 2)).sum /
          (([0, 2] : List ℚ).length : ℚ)) = 1 := by
      norm_num
    rw [hvar]
    rw [show flooredStd 1 = 1 from by
      rw [flooredStd, if_neg (by norm_num)]; push_cast; exact Real.sqrt_one]
    push_cast
    norm_num
  rw [h1, h2]
  simp only [ne_eq, Option.some.injEq]
  intro heq
  have hs : (1 : ℝ) < Real.sqrt 2 := by
    rw [show (1 : ℝ) = Real.sqrt 1 from (Real.sqrt_one).symm]
    exact Real.sqrt_lt_sqrt (by norm_num) (by norm_num)
  have hlt : 100 / Real.sqrt 2 < 100 := div_lt_self (by norm_num) hs
  rw [heq] at hlt
  exact lt_irrefl _ hlt

/-- Counterexample to claim C5 as stated: a genuinely non-numeric
`mileage_last_week` cell is not silently coerced to 0 — the run
raises (pandas `.mean()` on the object-dtype column), so "evaluate
raises no error" fails at this input. -/
theorem C5_nonnumeric_cex :
    evaluate [trainStrMileage] 5 none none =
      .error "unsupported operand type for mean: abc" := by decide

/-- Claim C5 (amended): rows whose branding or mileage cell is missing
(NaN) raise no error: when no non-numeric string occurs in the two
numeric columns the run succeeds, missing cells are coerced to 0 both
for scoring and in the echoed numeric output fields, and eligibility
is unaffected (it equals the eligibility formula, which never reads
the numeric cells).  A genuinely non-numeric string cell instead
raises (see the counterexample). -/
theorem C5_missing_numeric (df : List Train) (today : Int) (jc? : Option JobCards)
    (cs? : Option CleaningSlots)
    (hall : df.all (fun r => numOk r.branding_priority && numOk r.mileage_last_week) = true) :
    ∃ out, evaluate df today jc? cs? = .ok out ∧
      ∀ (i : Nat) (r : Train), df[i]? = some r → ∃ row, out[i]? = some row ∧
        (r.branding_priority = Cell.nan → row.branding_priority = 0) ∧
        (r.mileage_last_week = Cell.nan → row.mileage_last_week = 0) ∧
        row.eligible = eligFinal today jc? (cleaningCapacity cs?)
          (usedAfter today jc? (cleaningCapacity cs?) 0 (df.take i)) r := by
  have hok : exceptOk (evaluate df today jc? cs?) = true := by
    rw [exceptOk_evaluate]; exact hall
  cases he : evaluate df today jc? cs? with
  | error e => rw [he] at hok; simp [exceptOk] at hok
  | ok out =>
    refine ⟨out, rfl, ?_⟩
    intro i r hr
    obtain ⟨hlen, hchar⟩ := evaluate_spec df today jc? cs? out he
    obtain ⟨b, m, hb, hm, hout⟩ := hchar i r hr
    refine ⟨_, hout, ?_, ?_, rfl⟩
    · intro hnan
      rw [hnan] at hb
      cases hb
      simp [mkRow]
    · intro hnan
      rw [hnan] at hm
      cases hm
      simp [mkRow]

/-- Witness for the amended C5 at a concrete run: a train with both
numeric cells missing is scored with 0s, echoes 0s, and stays
eligible. -/
theorem C5_missing_numeric_witness :
    evaluate [trainNanFields] 5 none none = .ok [rowW5] ∧
    rowW5.branding_priority = 0 ∧ rowW5.mileage_last_week = 0 ∧ rowW5.eligible = true := by
  obtain ⟨out, hok, hchar⟩ := C5_missing_numeric [trainNanFields] 5 none none (by decide)
  have hconc : evaluate [trainNanFields] 5 none none = .ok [rowW5] := by decide
  rw [hconc] at hok
  have hout : [rowW5] = out := Except.ok.inj hok
  obtain ⟨row, hrow, hbn, hmn, _helig⟩ := hchar 0 trainNanFields (by decide)
  rw [← hout] at hrow
  have heq : rowW5 = row := by simpa using hrow
  rw [← heq] at hbn hmn
  exact ⟨hconc, hbn rfl, hmn rfl, rfl⟩

/-- Claim C6: within one run (fixed mean and defined std), holding
mileage equal a higher branding priority never lowers the score, and
holding branding equal a higher mileage never raises the score. -/
theorem C6_score_monotone (df : List Train) (today : Int) (jc? : Option JobCards)
    (cs? : Option CleaningSlots) (out : List Row) (xs : List ℚ) (mu v : ℚ)
    (hok : evaluate df today jc? cs? = .ok out)
    (hxs : colNums (mileageCol df) = .ok xs)
    (hmu : qMean xs = some mu) (hv : qSampleVar xs = some v) :
    ∀ (i j : Nat) (ri rj : Row) (si sj : ℝ),
      out[i]? = some ri → out[j]? = some rj →
      Row.score (some mu, some v) ri = some si →
      Row.score (some mu, some v) rj = some sj →
      ((ri.mileage_last_week = rj.mileage_last_week →
        rj.branding_priority ≤ ri.branding_priority → sj ≤ si) ∧
       (ri.branding_priority = rj.branding_priority →
        rj.mileage_last_week ≤ ri.mileage_last_week → si ≤ sj)) := by
  intro i j ri rj si sj hri hrj hsi hsj
  have hv0 : 0 ≤ v := qSampleVar_nonneg xs v hv
  have hstd : 0 < flooredStd v := flooredStd_pos v hv0
  simp only [Row.score, scoreVal, Option.some.injEq] at hsi hsj
  constructor
  · intro hmeq hble
    rw [← hsi, ← hsj, hmeq]
    have hcast : ((rj.branding_priority : ℤ) : ℝ) ≤ ((ri.branding_priority : ℤ) : ℝ) := by
      exact_mod_cast hble
    linarith
  · intro hbeq hmle
    rw [← hsi, ← hsj, hbeq]
    have hm : (((rj.mileage_last_week - mu : ℚ)) : ℝ) ≤
        ((ri.mileage_last_week - mu : ℚ) : ℝ) := by
      have hq : (rj.mileage_last_week : ℝ) ≤ (ri.mileage_last_week : ℝ) := by
        exact_mod_cast hmle
      push_cast
      linarith
    have hdiv : ((rj.mileage_last_week - mu : ℚ) : ℝ) / flooredStd v ≤
        ((ri.mileage_last_week - mu : ℚ) : ℝ) / flooredStd v := by
      gcongr
    linarith

/-- Witness for C6 at a concrete run with equal mileages: the
higher-branded train's score 1000 is not below the other's 0. -/
theorem C6_score_monotone_witness :
    Row.score (some 0, some 0) rowW6a = some 1000 ∧
    Row.score (some 0, some 0) rowW6b = some 0 ∧ ((0 : ℝ) ≤ 1000) := by
  have ha : Row.score (some 0, some 0) rowW6a = some 1000 := by
    show scoreVal (some 0, some 0) rowW6a.branding_priority rowW6a.mileage_last_week = _
    simp only [scoreVal]
    rw [show flooredStd 0 = 1 from by rw [flooredStd, if_pos rfl]]
    norm_num [rowW6a]
  have hb : Row.score (some 0, some 0) rowW6b = some 0 := by
    show scoreVal (some 0, some 0) rowW6b.branding_priority rowW6b.mileage_last_week = _
    simp only [scoreVal]
    rw [show flooredStd 0 = 1 from by rw [flooredStd, if_pos rfl]]
    norm_num [rowW6b]
  have hok : evaluate dfC6 5 none none = .ok [rowW6a, rowW6b] := by decide
  have h := (C6_score_monotone dfC6 5 none none [rowW6a, rowW6b] [0, 0] 0 0 hok (by decide)
    (by norm_num [qMean]) (by norm_num [qSampleVar]) 0 1 rowW6a rowW6b 1000 0
    (by decide) (by decide) ha hb).1 (by decide) (by decide)
  exact ⟨ha, hb, h⟩

/-- Claim C7: an unparsable `fitness_valid_until` cell is coerced to
null by the parse step rather than raising; a train carrying it is
evaluated normally (the run succeeds whenever the numeric columns are
clean) and comes out ineligible with reason "Expired fitness". -/
theorem C7_unparsable_date (df : List Train) (today : Int) (jc? : Option JobCards)
    (cs? : Option CleaningSlots) (i : Nat) (r : Train)
    (hr : df[i]? = some r)
    (hfit : r.fitness_valid_until = to_datetime_coerce RawDate.invalid)
    (hall : df.all (fun t => numOk t.branding_priority && numOk t.mileage_last_week) = true) :
    ∃ out, evaluate df today jc? cs? = .ok out ∧
      ∃ row, out[i]? = some row ∧ row.eligible = false ∧
        Reason.expiredFitness ∈ row.reason := by
  have hok : exceptOk (evaluate df today jc? cs?) = true := by
    rw [exceptOk_evaluate]; exact hall
  cases he : evaluate df today jc? cs? with
  | error e => rw [he] at hok; simp [exceptOk] at hok
  | ok out =>
    obtain ⟨hlen, hchar⟩ := evaluate_spec df today jc? cs? out he
    obtain ⟨b, m, hb, hm, hout⟩ := hchar i r hr
    have hnone : r.fitness_valid_until = none := hfit
    have hbad : fitnessBad today r = true := by simp [fitnessBad, hnone]
    refine ⟨out, rfl, _, hout, ?_, ?_⟩
    · simp [mkRow, eligFinal, eligAfterJob, hbad]
    · simpa [mkRow] using expired_mem_reasons today jc? (cleaningCapacity cs?)
        (usedAfter today jc? (cleaningCapacity cs?) 0 (df.take i)) r hbad

/-- Witness for C7 at a concrete run. -/
theorem C7_unparsable_date_witness :
    evaluate [trainBadDate] 5 none none = .ok [rowW7] ∧
    rowW7.eligible = false ∧ Reason.expiredFitness ∈ rowW7.reason := by
  obtain ⟨out, hok, row, hrow, helig, hmem⟩ := C7_unparsable_date [trainBadDate] 5 none none 0
    trainBadDate (by decide) (by decide) (by decide)
  have hconc : evaluate [trainBadDate] 5 none none = .ok [rowW7] := by decide
  rw [hconc] at hok
  have hout : [rowW7] = out := Except.ok.inj hok
  rw [← hout] at hrow
  have heq : rowW7 = row := by simpa using hrow
  rw [← heq] at helig hmem
  exact ⟨hconc, helig, hmem⟩

theorem sameExcept_eq_set (r r' : Train) (h : sameExceptJobCardOpen r r') :
    r' = setJobCardOpen r r'.job_card_open := by
  obtain ⟨h1, h2, h3, h4, h5, h6⟩ := h
  cases r
  cases r'
  simp_all [setJobCardOpen]

theorem evalRow_setJobCardOpen (today : Int) (jc? : Option JobCards) (cap? : Option Nat)
    (used : Nat) (r : Train) (b : Bool) :
    evalRow today jc? cap? used (setJobCardOpen r b) = evalRow today jc? cap? used r := rfl

theorem mileageCol_forall2 (df df' : List Train)
    (h : List.Forall₂ sameExceptJobCardOpen df df') :
    mileageCol df = mileageCol df' := by
  induction h with
  | nil => rfl
  | cons hrel htail ih =>
    simp only [mileageCol, List.map_cons] at ih ⊢
    rw [hrel.2.2.2.1, ih]

theorem evalRows_forall2 (today : Int) (jc? : Option JobCards) (cap? : Option Nat)
    (df df' : List Train) (h : List.Forall₂ sameExceptJobCardOpen df df') :
    ∀ used, evalRows today jc? cap? used df = evalRows today jc? cap? used df' := by
  induction h with
  | nil => intro used; rfl
  | @cons a a' l l' hrel htail ih =>
    intro used
    have ha : a' = setJobCardOpen a a'.job_card_open := sameExcept_eq_set _ _ hrel
    rw [show evalRows today jc? cap? used (a' :: l') =
        evalRows today jc? cap? used (setJobCardOpen a a'.job_card_open :: l') from by
      rw [← ha]]
    simp only [evalRows, evalRow_setJobCardOpen]
    cases he : evalRow today jc? cap? used a with
    | error e => rfl
    | ok p =>
      obtain ⟨row, used'⟩ := p
      simp only []
      rw [ih used']

/-- Claim C8: noninterference of the informational `job_card_open`
roster column: two rosters identical except in that column evaluate to
identical outputs (same reference date, job-card table and
cleaning-slot table) — blocking depends only on the job-card table
join, never on the roster's `job_card_open` field. -/
theorem C8_jobcard_open_noninterference (df df' : List Train) (today : Int)
    (jc? : Option JobCards) (cs? : Option CleaningSlots)
    (h : List.Forall₂ sameExceptJobCardOpen df df') :
    evaluate df today jc? cs? = evaluate df' today jc? cs? := by
  unfold evaluate
  rw [mileageCol_forall2 df df' h]
  cases colNums (mileageCol df') with
  | error e => rfl
  | ok xs => exact evalRows_forall2 today jc? (cleaningCapacity cs?) df df' h 0

/-- Witness for C8 at a concrete pair of rosters differing only in
`job_card_open`. -/
theorem C8_jobcard_open_noninterference_witness :
    evaluate [trainFit] 5 none none = evaluate [setJobCardOpen trainFit true] 5 none none :=
  C8_jobcard_open_noninterference [trainFit] [setJobCardOpen trainFit true] 5 none none
    (List.Forall₂.cons ⟨rfl, rfl, rfl, rfl, rfl, rfl⟩ List.Forall₂.nil)

/-- Claim C9: evaluate is deterministic and reentrant: in any sequence
of invocations, each call's result is exactly `evaluate` of its own
inputs, independent of all earlier and later calls; the cleaning
counter and the mileage statistics are locals of the call in the
embedding, as in the source (lines 70-73). -/
theorem C9_run_independence (pre post : List EvalCall) (c : EvalCall) :
    (runCalls (pre ++ c :: post))[pre.length]? =
      some (evaluate c.df c.today c.job_cards c.cleaning_slots) := by
  unfold runCalls
  rw [List.map_append, List.getElem?_append_right (by simp)]
  simp

theorem noCleaningSlot_not_mem (today : Int) (jc? : Option JobCards) (cap? : Option Nat)
    (used : Nat) (r : Train) (hblock : cleanBlocked today jc? cap? used r = false) :
    Reason.noCleaningSlot ∉ rowReasons today jc? cap? used r := by
  unfold rowReasons
  rw [hblock]
  cases jc? with
  | none =>
    cases hf : fitnessBad today r <;> cases hn : r.needs_cleaning <;> simp
  | some jc =>
    cases hf : fitnessBad today r <;> cases hn : r.needs_cleaning <;>
      cases hj : jobCardHit (some jc) r <;> simp [hj]

/-- Claim C10: a supplied cleaning-slot table without an `available`
column leaves cleaning capacity unknown (`none`), not zero: no row
ever gets reason "No cleaning slot available", and a needs-cleaning
train passing the fitness and job-card checks stays eligible, carrying
only the informational "Needs cleaning" reason. -/
theorem C10_capacity_unknown (df : List Train) (today : Int) (jc? : Option JobCards)
    (cs : CleaningSlots) (hcol : cs.availableCol = none) (out : List Row)
    (hok : evaluate df today jc? (some cs) = .ok out) :
    cleaningCapacity (some cs) = none ∧
    ∀ (i : Nat) (r : Train), df[i]? = some r → ∃ row, out[i]? = some row ∧
      Reason.noCleaningSlot ∉ row.reason ∧
      (r.needs_cleaning = true → Reason.needsCleaning ∈ row.reason ∧
        (eligAfterJob today jc? r = true → row.eligible = true)) := by
  have hcap : cleaningCapacity (some cs) = none := by simp [cleaningCapacity, hcol]
  refine ⟨hcap, ?_⟩
  intro i r hr
  obtain ⟨hlen, hchar⟩ := evaluate_spec df today jc? (some cs) out hok
  obtain ⟨b, m, hb, hm, hout⟩ := hchar i r hr
  rw [hcap] at hout
  have hblock : cleanBlocked today jc? none
      (usedAfter today jc? none 0 (df.take i)) r = false := by
    simp [cleanBlocked]
  refine ⟨_, hout, ?_, ?_⟩
  · simpa [mkRow] using noCleaningSlot_not_mem today jc? none
      (usedAfter today jc? none 0 (df.take i)) r hblock
  · intro hneeds
    constructor
    · simp [mkRow, rowReasons, hneeds]
    · intro helig
      simp [mkRow, eligFinal, hblock, helig]

/-- Witness for C10 at a concrete run: one needs-cleaning train and a
slot table with no `available` column. -/
theorem C10_capacity_unknown_witness :
    evaluate [trainClean1] 5 none (some slotsNoCol) = .ok [rowW10] ∧
    rowW10.eligible = true ∧ Reason.needsCleaning ∈ rowW10.reason ∧
    Reason.noCleaningSlot ∉ rowW10.reason := by
  have hok : evaluate [trainClean1] 5 none (some slotsNoCol) = .ok [rowW10] := by decide
  obtain ⟨hcap, hchar⟩ := C10_capacity_unknown [trainClean1] 5 none slotsNoCol rfl [rowW10] hok
  obtain ⟨row, hrow, hnot, hneeds⟩ := hchar 0 trainClean1 (by decide)
  have heq : rowW10 = row := by simpa using hrow
  rw [← heq] at hnot hneeds
  have h2 := hneeds rfl
  exact ⟨hok, h2.2 (by decide), h2.1, hnot⟩
